import Mathlib

/-!
Verification of the move-a-point tutorial simulator
(`tutorial1/move_a_point_sim.py`).

The engine (`PointSimulation`) keeps an agent position, a target and a step
counter; the adapter (`PointBonsaiBridge`) wraps it with a step budget, an
observation encoding and a shaped reward.  Python floats are modelled as real
numbers; the random draws of `reset` are modelled by an explicit stream of
candidate (target, current) pairs, consumed in order by the rejection loop;
Python exceptions raised while handling the action dictionary are modelled by
an error value, paired with the (possibly partially mutated) adapter state.
-/

namespace MoveAPoint

open Classical

/-- A 2D point `(x, y)`, as the Python tuples. -/
abbrev Point : Type := ℝ × ℝ

/-- Python `distance(p1, p2)`: the euclidean distance, `math.hypot(x1-x2, y1-y2)`. -/
noncomputable def distance (p1 p2 : Point) : ℝ :=
  Real.sqrt ((p1.1 - p2.1) ^ 2 + (p1.2 - p2.2) ^ 2)

/-- The constant `PointSimulation.STEP_SIZE = 0.1`. -/
def STEP_SIZE : ℝ := 0.1

/-- The constant `PointSimulation.PRECISION = 0.15`. -/
def PRECISION : ℝ := 0.15

/-- The state owned by `PointSimulation`: `current`, `target`, `steps`,
`initial_distance`. -/
structure SimState where
  current : Point
  target : Point
  steps : ℕ
  initial_distance : ℝ

/-- Python `PointSimulation.game_over`: `distance(current, target) < PRECISION`. -/
def game_over (s : SimState) : Prop :=
  distance s.current s.target < PRECISION

/-- One candidate draw of `choose_points()`: first the target, then the
current point (each `(random(), random())` in the Python source). -/
abbrev Draw : Type := Point × Point

/-- A draw on which the rejection loop of `reset` stops: `game_over` is false
for it, i.e. `¬ distance current target < PRECISION`. -/
def goodDraw (d : Draw) : Prop :=
  ¬ distance d.2 d.1 < PRECISION

/-- Python `PointSimulation.reset`, over a stream of candidate draws: `choose_points`
once, then redraw `while self.game_over()`, then `steps = 0` and
`initial_distance = distance(current, target)`.  The loop has no retry bound
and no failure outcome: it stops at the first acceptable draw; `none` models
the loop running forever when no draw in the stream is ever acceptable. -/
noncomputable def reset (draws : ℕ → Draw) : Option SimState :=
  if h : ∃ n, goodDraw (draws n) then
    some { current := (draws (Nat.find h)).2
           target := (draws (Nat.find h)).1
           steps := 0
           initial_distance := distance (draws (Nat.find h)).2 (draws (Nat.find h)).1 }
  else
    none

/-- Python `PointSimulation._move_current`: move `current` by `STEP_SIZE` in the
given direction. -/
noncomputable def _move_current (s : SimState) (direction_radians : ℝ) : SimState :=
  { s with current := (s.current.1 + STEP_SIZE * Real.cos direction_radians,
                       s.current.2 + STEP_SIZE * Real.sin direction_radians) }

/-- Python `PointSimulation.step`: `_move_current`, then `steps += 1` (the progress
`print` on game over is a side channel and is not modelled). -/
noncomputable def step (s : SimState) (direction_radians : ℝ) : SimState :=
  let s' := _move_current s direction_radians
  { s' with steps := s'.steps + 1 }

/-- Iterated `step` over a list of directions. -/
noncomputable def stepMany (s : SimState) (ds : List ℝ) : SimState :=
  ds.foldl step s

/-- Evaluate `distance` at points whose squared distance is known. -/
lemma distance_eq_of_sq {p q : Point} {r : ℝ} (hr : 0 ≤ r)
    (h : (p.1 - q.1) ^ 2 + (p.2 - q.2) ^ 2 = r ^ 2) : distance p q = r := by
  rw [distance, h, Real.sqrt_sq hr]

lemma reset_eq_first_good (draws : ℕ → Draw) (n : ℕ)
    (hg : goodDraw (draws n)) (hb : ∀ i < n, ¬ goodDraw (draws i)) :
    reset draws = some { current := (draws n).2
                         target := (draws n).1
                         steps := 0
                         initial_distance := distance (draws n).2 (draws n).1 } := by
  have hex : ∃ m, goodDraw (draws m) := ⟨n, hg⟩
  unfold reset
  rw [dif_pos hex]
  have hfind : Nat.find hex = n := (Nat.find_eq_iff hex).mpr ⟨hg, hb⟩
  rw [hfind]

lemma reset_some_elim (draws : ℕ → Draw) (s : SimState)
    (h : reset draws = some s) :
    goodDraw (s.target, s.current) ∧ s.steps = 0 ∧
      s.initial_distance = distance s.current s.target := by
  unfold reset at h
  by_cases hex : ∃ n, goodDraw (draws n)
  · rw [dif_pos hex] at h
    have := Nat.find_spec hex
    cases h
    exact ⟨this, rfl, rfl⟩
  · rw [dif_neg hex] at h
    cases h

/-- The constant `PointBonsaiBridge.MAX_STEPS = 20`: the step budget the adapter adds on
top of the engine. -/
def MAX_STEPS : ℕ := 20

/-- The state owned by `PointBonsaiBridge`: the wrapped `PointSimulation`,
the `previous` point tracked for reward shaping, and the episode counter. -/
structure BridgeState where
  simulation : SimState
  previous : Point
  num_episodes : ℕ

/-- Python `PointBonsaiBridge._is_terminal`: the engine is done spatially, or the
step budget is exhausted. -/
def _is_terminal (b : BridgeState) : Prop :=
  game_over b.simulation ∨ b.simulation.steps ≥ MAX_STEPS

/-- Python `PointBonsaiBridge._reset_sim`: reset the engine, then record
`previous = current` and bump the episode counter (the every-100-episodes
progress dot is a side channel and is not modelled). -/
noncomputable def _reset_sim (b : BridgeState) (draws : ℕ → Draw) :
    Option BridgeState :=
  (reset draws).map fun sim =>
    { simulation := sim, previous := sim.current, num_episodes := b.num_episodes + 1 }

/-- Python `PointBonsaiBridge._get_state`: the observation,
`{dx: target.x - current.x, dy: target.y - current.y}`. -/
def _get_state (b : BridgeState) : ℝ × ℝ :=
  (b.simulation.target.1 - b.simulation.current.1,
   b.simulation.target.2 - b.simulation.current.2)

/-- Python `PointBonsaiBridge.episode_start`: `_reset_sim` then return the
observation. -/
noncomputable def episode_start (b : BridgeState) (draws : ℕ → Draw) :
    Option (BridgeState × (ℝ × ℝ)) :=
  (_reset_sim b draws).map fun b' => (b', _get_state b')

/-- Python `PointBonsaiBridge._shape_reward`: progress toward the target, normalized
by the step size; squared when positive, doubled and decreased by one
otherwise. -/
noncomputable def _shape_reward (current previous target : Point) : ℝ :=
  let progress := (distance previous target - distance current target) / STEP_SIZE
  if progress > 0 then progress ^ 2 else 2 * progress - 1

/-- Python `PointBonsaiBridge.reward_shaped`: on a terminal state,
`MAX_STEPS - self.simulation.steps`; otherwise `_shape_reward`. -/
noncomputable def reward_shaped (b : BridgeState)
    (current previous target : Point) : ℝ :=
  if _is_terminal b then (MAX_STEPS : ℝ) - (b.simulation.steps : ℝ)
  else _shape_reward current previous target

/-- A Python value found in the action dictionary: a number, or anything
else (on which `math.cos` raises). -/
inductive PyValue where
  | num : ℝ → PyValue
  | nonNumeric : PyValue

/-- The action dictionary passed to `simulate`, as a partial map from keys. -/
abbrev Action : Type := String → Option PyValue

/-- The key `simulate` reads from the action dictionary. -/
def directionKey : String := "direction_radians"

/-- The well-formed action whose direction field holds the number `d`. -/
def actionNum (d : ℝ) : Action :=
  fun k => if k = directionKey then some (PyValue.num d) else none

/-- The exception `simulate` lets escape when the action has no usable
direction: `KeyError` on a missing key, `TypeError` from the trigonometry on
a non-numeric value.  Both are the spec's `InvalidAction` kind. -/
inductive SimError where
  | invalidAction : SimError

/-- The `(state, reward, terminal)` triple `simulate` returns. -/
structure StepResult where
  state : ℝ × ℝ
  reward : ℝ
  terminal : Prop

/-- Python `PointBonsaiBridge.simulate`.  The normal path reads the direction, saves
`previous = current`, steps the engine, and returns the observation, the
shaped reward and the terminal flag.  A missing `"direction_radians"` key
raises before anything is mutated; a non-numeric value raises inside
`math.cos`, after `previous` was saved but before the engine state changes.
The escaping exception is returned together with the adapter state as the
call leaves it. -/
noncomputable def simulate (b : BridgeState) (action : Action) :
    Except SimError StepResult × BridgeState :=
  match action directionKey with
  | none => (Except.error SimError.invalidAction, b)
  | some PyValue.nonNumeric =>
      (Except.error SimError.invalidAction, { b with previous := b.simulation.current })
  | some (PyValue.num direction) =>
      let b1 : BridgeState := { b with previous := b.simulation.current }
      let b2 : BridgeState := { b1 with simulation := step b1.simulation direction }
      let current := b2.simulation.current
      let target := b2.simulation.target
      let reward := reward_shaped b2 current b2.previous target
      let state := _get_state b2
      let terminal := _is_terminal b2
      (Except.ok { state := state, reward := reward, terminal := terminal }, b2)

/-- Iterated `simulate` with well-formed actions, keeping only the adapter
state. -/
noncomputable def simulateMany (b : BridgeState) (ds : List ℝ) : BridgeState :=
  ds.foldl (fun b' d => (simulate b' (actionNum d)).2) b

/-- The reward carried by a `simulate` outcome, when the call returned one. -/
def returnedReward : Except SimError StepResult × BridgeState → Option ℝ
  | (Except.ok r, _) => some r.reward
  | (Except.error _, _) => none

/-- The spec's `progress` for one adapter step:
`(distance(previous, target) - distance(current, target)) / STEP_SIZE`, with
`previous` the pre-move position and `current` the post-move one. -/
noncomputable def stepProgress (b : BridgeState) (d : ℝ) : ℝ :=
  (distance b.simulation.current b.simulation.target
    - distance (step b.simulation d).current b.simulation.target) / STEP_SIZE

/-- The adapter state after the normal path of `simulate`. -/
noncomputable def postB (b : BridgeState) (d : ℝ) : BridgeState :=
  { b with previous := b.simulation.current, simulation := step b.simulation d }

lemma simulate_actionNum (b : BridgeState) (d : ℝ) :
    simulate b (actionNum d) =
      (Except.ok { state := _get_state (postB b d)
                   reward := reward_shaped (postB b d) (step b.simulation d).current
                     b.simulation.current b.simulation.target
                   terminal := _is_terminal (postB b d) },
       postB b d) := rfl

lemma postB_steps (b : BridgeState) (d : ℝ) :
    (postB b d).simulation.steps = b.simulation.steps + 1 := rfl

lemma postB_target (b : BridgeState) (d : ℝ) :
    (postB b d).simulation.target = b.simulation.target := rfl

lemma postB_current (b : BridgeState) (d : ℝ) :
    (postB b d).simulation.current = (_move_current b.simulation d).current := rfl

lemma episode_start_some (b : BridgeState) (draws : ℕ → Draw)
    (b' : BridgeState) (st : ℝ × ℝ)
    (h : episode_start b draws = some (b', st)) :
    reset draws = some b'.simulation ∧ b'.previous = b'.simulation.current := by
  unfold episode_start _reset_sim at h
  cases hres : reset draws with
  | none => rw [hres] at h; simp at h
  | some sim =>
      rw [hres] at h
      simp only [Option.map_some', Option.some.injEq, Prod.mk.injEq] at h
      obtain ⟨hb', _⟩ := h
      rw [← hb']
      exact ⟨rfl, rfl⟩

lemma distance_00_10 : distance ((0:ℝ), (0:ℝ)) ((1:ℝ), (0:ℝ)) = 1 :=
  distance_eq_of_sq (by norm_num) (by norm_num)

lemma distance_00_015 : distance ((0:ℝ), (0:ℝ)) ((0.15:ℝ), (0:ℝ)) = PRECISION :=
  distance_eq_of_sq (by norm_num [PRECISION]) (by norm_num [PRECISION])

lemma distance_01_10 : distance ((0.1:ℝ), (0:ℝ)) ((1:ℝ), (0:ℝ)) = 0.9 :=
  distance_eq_of_sq (by norm_num) (by norm_num)

lemma distance_00_00 : distance ((0:ℝ), (0:ℝ)) ((0:ℝ), (0:ℝ)) = 0 :=
  distance_eq_of_sq le_rfl (by norm_num)

/-- A draw stream whose very first candidate already has the agent at
distance exactly `PRECISION` from the target: target `(0.15, 0)`,
current `(0, 0)`. -/
noncomputable def c1Draws : ℕ → Draw :=
  fun _ => (((0.15:ℝ), (0:ℝ)), ((0:ℝ), (0:ℝ)))

/-- The state `reset` accepts from `c1Draws`: its very first draw. -/
noncomputable def c1State : SimState :=
  { current := ((0:ℝ), (0:ℝ))
    target := ((0.15:ℝ), (0:ℝ))
    steps := 0
    initial_distance := distance ((0:ℝ), (0:ℝ)) ((0.15:ℝ), (0:ℝ)) }

lemma c1Draws_good : goodDraw (c1Draws 0) := by
  show ¬ distance ((0:ℝ), (0:ℝ)) ((0.15:ℝ), (0:ℝ)) < PRECISION
  rw [distance_00_015]
  exact lt_irrefl _

lemma reset_c1 : reset c1Draws = some c1State := by
  have h := reset_eq_first_good c1Draws 0 c1Draws_good (by omega)
  exact h

/-- An arbitrary adapter state used as the pre-reset receiver. -/
noncomputable def b0 : BridgeState :=
  { simulation := c1State, previous := ((0:ℝ), (0:ℝ)), num_episodes := 0 }

/-- The adapter state produced by `episode_start b0 c1Draws`. -/
noncomputable def c1Bridge : BridgeState :=
  { simulation := c1State, previous := c1State.current, num_episodes := 1 }

lemma episode_start_c1 :
    episode_start b0 c1Draws = some (c1Bridge, _get_state c1Bridge) := by
  unfold episode_start _reset_sim
  rw [reset_c1]
  rfl

lemma stepMany_steps (ds : List ℝ) : ∀ s : SimState,
    (stepMany s ds).steps = s.steps + ds.length := by
  induction ds with
  | nil => intro s; rfl
  | cons d ds ih =>
      intro s
      have h1 : stepMany s (d :: ds) = stepMany (step s d) ds := rfl
      have h2 : (step s d).steps = s.steps + 1 := rfl
      rw [h1, ih (step s d), h2, List.length_cons]
      omega

/-- C1: the claim asserts that after `reset` the strict inequality
`distance(current, target) > PRECISION` holds, the pair being redrawn until
it does.  The rejection loop in fact retries only `while game_over()`, i.e.
while `distance < PRECISION`: a draw at distance exactly `PRECISION` is
accepted.  Witnessed by the stream `c1Draws`, whose first draw puts the
agent at distance exactly `PRECISION = 0.15` from the target: `reset`
accepts it immediately, and the resulting state violates the claimed strict
inequality. -/
theorem C1_reset_separation_counterexample :
    reset c1Draws = some c1State ∧
    distance c1State.current c1State.target = PRECISION ∧
    ¬ distance c1State.current c1State.target > PRECISION := by
  have hd : distance c1State.current c1State.target = PRECISION := distance_00_015
  exact ⟨reset_c1, hd, by rw [hd]; exact lt_irrefl _⟩

/-- C1 (amended): immediately after `reset` — and hence after
`episode_start` — the state satisfies `distance(current, target) ≥
PRECISION`: the pair is redrawn while `distance < PRECISION`, so no episode
starts strictly closer than `PRECISION`, but a start at distance exactly
`PRECISION` is possible. -/
theorem C1_reset_separation (draws : ℕ → Draw) (b : BridgeState)
    (s : SimState) (b' : BridgeState) (st : ℝ × ℝ)
    (hs : reset draws = some s)
    (hb : episode_start b draws = some (b', st)) :
    PRECISION ≤ distance s.current s.target ∧
    PRECISION ≤ distance b'.simulation.current b'.simulation.target := by
  have h1 := (reset_some_elim draws s hs).1
  have h2 := (reset_some_elim draws b'.simulation (episode_start_some b draws b' st hb).1).1
  exact ⟨not_lt.mp h1, not_lt.mp h2⟩

theorem C1_reset_separation_witness :
    PRECISION ≤ distance c1State.current c1State.target ∧
    PRECISION ≤ distance c1Bridge.simulation.current c1Bridge.simulation.target :=
  C1_reset_separation c1Draws b0 c1State c1Bridge (_get_state c1Bridge)
    reset_c1 episode_start_c1

/-- C4: the engine's terminal check `game_over` holds exactly when
`distance(current, target) < PRECISION`, with strict less-than: a state at
distance exactly `PRECISION` is not terminal; and the check is independent
of the step counter. -/
theorem C4_game_over_strict (s : SimState) :
    (game_over s ↔ distance s.current s.target < PRECISION) ∧
    (distance s.current s.target = PRECISION → ¬ game_over s) ∧
    (∀ n : ℕ, game_over { s with steps := n } ↔ game_over s) := by
  refine ⟨Iff.rfl, fun h hgo => ?_, fun n => Iff.rfl⟩
  rw [game_over, h] at hgo
  exact lt_irrefl _ hgo

theorem C4_game_over_strict_witness : ¬ game_over c1State :=
  (C4_game_over_strict c1State).2.1 distance_00_015

/-- C5: one engine `step` in direction `d` moves the agent to
`current + STEP_SIZE * (cos d, sin d)` with `STEP_SIZE = 0.1`, leaves the
target unchanged, and increments the step counter by exactly one; steps are
never decremented, so from any reset state the counter after a list of
`step` calls equals its length. -/
theorem C5_step_dynamics (s : SimState) (d : ℝ) :
    (step s d).current = (s.current.1 + STEP_SIZE * Real.cos d,
                          s.current.2 + STEP_SIZE * Real.sin d) ∧
    (step s d).target = s.target ∧
    (step s d).steps = s.steps + 1 ∧
    STEP_SIZE = 0.1 ∧
    (∀ draws s0, reset draws = some s0 →
      ∀ ds : List ℝ, (stepMany s0 ds).steps = ds.length) := by
  refine ⟨rfl, rfl, rfl, rfl, fun draws s0 h0 ds => ?_⟩
  have hz := (reset_some_elim draws s0 h0).2.1
  rw [stepMany_steps ds s0, hz]
  omega

theorem C5_step_dynamics_witness :
    (stepMany c1State [0, 0, 0]).steps = 3 := by
  have h := (C5_step_dynamics c1State 0).2.2.2.2 c1Draws c1State reset_c1 [0, 0, 0]
  simpa using h

/-- C6: the adapter's terminal check holds exactly when the engine's spatial
check holds or the step counter has reached the budget `MAX_STEPS = 20`,
the comparison being an inclusive `>=`: a state with exactly 20 steps is
terminal regardless of position. -/
theorem C6_adapter_terminal (b : BridgeState) :
    (_is_terminal b ↔ (game_over b.simulation ∨ b.simulation.steps ≥ MAX_STEPS)) ∧
    MAX_STEPS = 20 ∧
    (b.simulation.steps = MAX_STEPS → _is_terminal b) := by
  refine ⟨Iff.rfl, rfl, fun h => Or.inr (le_of_eq h.symm)⟩

/-- An adapter state whose engine has exactly `MAX_STEPS` completed steps
while still a distance 1 away from the target. -/
noncomputable def wBridge20 : BridgeState :=
  { simulation := { current := ((0:ℝ), (0:ℝ)), target := ((1:ℝ), (0:ℝ)),
                    steps := 20, initial_distance := 1 }
    previous := ((0:ℝ), (0:ℝ))
    num_episodes := 0 }

theorem C6_adapter_terminal_witness : _is_terminal wBridge20 :=
  (C6_adapter_terminal wBridge20).2.2 rfl

lemma shape_reward_eq (b : BridgeState) (d : ℝ) :
    _shape_reward (step b.simulation d).current b.simulation.current
        b.simulation.target =
      if stepProgress b d > 0 then stepProgress b d ^ 2
      else 2 * stepProgress b d - 1 := rfl

/-- C2: on a step whose post-move state is not terminal, the returned reward
is the piecewise function of the normalized progress
`(distance(previous, target) - distance(current, target)) / STEP_SIZE`:
its square when strictly positive, and `2 * progress - 1` when non-positive
(zero included). -/
theorem C2_nonterminal_reward (b : BridgeState) (d : ℝ)
    (hterm : ¬ _is_terminal (simulate b (actionNum d)).2) :
    (0 < stepProgress b d →
      returnedReward (simulate b (actionNum d)) = some (stepProgress b d ^ 2)) ∧
    (stepProgress b d ≤ 0 →
      returnedReward (simulate b (actionNum d)) = some (2 * stepProgress b d - 1)) := by
  have hterm' : ¬ _is_terminal (postB b d) := by
    rw [simulate_actionNum] at hterm; exact hterm
  have hmain : returnedReward (simulate b (actionNum d)) =
      some (if stepProgress b d > 0 then stepProgress b d ^ 2
            else 2 * stepProgress b d - 1) := by
    rw [simulate_actionNum]
    show some (reward_shaped (postB b d) (step b.simulation d).current
      b.simulation.current b.simulation.target) = _
    rw [reward_shaped, if_neg hterm', shape_reward_eq]
  refine ⟨fun hp => ?_, fun hn => ?_⟩
  · rw [hmain, if_pos hp]
  · rw [hmain, if_neg (not_lt.mpr hn)]

/-- An adapter state at the spec's scenario: agent at the origin, target at
`(1, 0)`, no steps taken yet. -/
noncomputable def wBridge : BridgeState :=
  { simulation := { current := ((0:ℝ), (0:ℝ)), target := ((1:ℝ), (0:ℝ)),
                    steps := 0, initial_distance := 1 }
    previous := ((0:ℝ), (0:ℝ))
    num_episodes := 0 }

lemma step_w_current : (step wBridge.simulation 0).current = ((0.1:ℝ), (0:ℝ)) := by
  show ((0:ℝ) + STEP_SIZE * Real.cos 0, (0:ℝ) + STEP_SIZE * Real.sin 0) =
    ((0.1:ℝ), (0:ℝ))
  rw [Real.cos_zero, Real.sin_zero]
  norm_num [STEP_SIZE]

lemma stepProgress_w : stepProgress wBridge 0 = 1 := by
  have h1 : stepProgress wBridge 0 =
      (distance ((0:ℝ), (0:ℝ)) ((1:ℝ), (0:ℝ))
        - distance (step wBridge.simulation 0).current ((1:ℝ), (0:ℝ))) / STEP_SIZE := rfl
  rw [h1, step_w_current, distance_00_10, distance_01_10]
  norm_num [STEP_SIZE]

lemma w_not_terminal : ¬ _is_terminal (postB wBridge 0) := by
  intro h
  rcases h with h | h
  · have hcur : (postB wBridge 0).simulation.current = ((0.1:ℝ), (0:ℝ)) := step_w_current
    have htgt : (postB wBridge 0).simulation.target = ((1:ℝ), (0:ℝ)) := rfl
    rw [game_over, hcur, htgt, distance_01_10] at h
    rw [PRECISION] at h
    norm_num at h
  · have hst : (postB wBridge 0).simulation.steps = 1 := rfl
    rw [hst] at h
    exact absurd h (by decide)

theorem C2_nonterminal_reward_witness :
    ¬ _is_terminal (simulate wBridge (actionNum 0)).2 ∧
    returnedReward (simulate wBridge (actionNum 0)) = some 1 := by
  have hterm : ¬ _is_terminal (simulate wBridge (actionNum 0)).2 := by
    rw [simulate_actionNum]; exact w_not_terminal
  refine ⟨hterm, ?_⟩
  have h := (C2_nonterminal_reward wBridge 0 hterm).1
    (by rw [stepProgress_w]; norm_num)
  rw [h, stepProgress_w]
  norm_num

/-- C3: on a step whose post-move state is terminal (spatially or by the
step budget), the returned reward is `MAX_STEPS - steps` for the post-move
step count; in particular it is exactly `0` when the budget is hit at
`steps = MAX_STEPS`. -/
theorem C3_terminal_reward (b : BridgeState) (d : ℝ)
    (hterm : _is_terminal (simulate b (actionNum d)).2) :
    returnedReward (simulate b (actionNum d)) =
      some ((MAX_STEPS : ℝ) - ((simulate b (actionNum d)).2.simulation.steps : ℝ)) ∧
    ((simulate b (actionNum d)).2.simulation.steps = MAX_STEPS →
      returnedReward (simulate b (actionNum d)) = some 0) := by
  have hterm' : _is_terminal (postB b d) := by
    rw [simulate_actionNum] at hterm; exact hterm
  have hmain : returnedReward (simulate b (actionNum d)) =
      some ((MAX_STEPS : ℝ) - ((postB b d).simulation.steps : ℝ)) := by
    rw [simulate_actionNum]
    show some (reward_shaped (postB b d) (step b.simulation d).current
      b.simulation.current b.simulation.target) = _
    rw [reward_shaped, if_pos hterm']
  constructor
  · rw [hmain, simulate_actionNum]
  · intro hsteps
    rw [simulate_actionNum] at hsteps
    rw [hmain, hsteps]
    norm_num

/-- An adapter state one step short of the budget, a distance 1 from the
target. -/
noncomputable def wBridge19 : BridgeState :=
  { simulation := { current := ((0:ℝ), (0:ℝ)), target := ((1:ℝ), (0:ℝ)),
                    steps := 19, initial_distance := 1 }
    previous := ((0:ℝ), (0:ℝ))
    num_episodes := 0 }

theorem C3_terminal_reward_witness :
    _is_terminal (simulate wBridge19 (actionNum 0)).2 ∧
    returnedReward (simulate wBridge19 (actionNum 0)) = some 0 := by
  have hterm : _is_terminal (simulate wBridge19 (actionNum 0)).2 := by
    rw [simulate_actionNum]
    exact Or.inr (by rw [postB_steps]; decide)
  have h := (C3_terminal_reward wBridge19 0 hterm).2
    (by rw [simulate_actionNum, postB_steps]; rfl)
  exact ⟨hterm, h⟩

/-- C7: the adapter's `previous` point equals the agent position as it was
immediately before the most recent move — `simulate` records it from
`current` before stepping the engine — and immediately after
`episode_start` it equals the fresh current position. -/
theorem C7_previous_tracking (b : BridgeState) (draws : ℕ → Draw)
    (b' : BridgeState) (st : ℝ × ℝ) (d : ℝ)
    (h : episode_start b draws = some (b', st)) :
    b'.previous = b'.simulation.current ∧
    (simulate b (actionNum d)).2.previous = b.simulation.current ∧
    (simulate b (actionNum d)).2.simulation = step b.simulation d := by
  refine ⟨(episode_start_some b draws b' st h).2, ?_, ?_⟩
  · rw [simulate_actionNum]; rfl
  · rw [simulate_actionNum]; rfl

theorem C7_previous_tracking_witness :
    c1Bridge.previous = c1Bridge.simulation.current ∧
    (simulate b0 (actionNum 0)).2.previous = b0.simulation.current ∧
    (simulate b0 (actionNum 0)).2.simulation = step b0.simulation 0 :=
  C7_previous_tracking b0 c1Draws c1Bridge (_get_state c1Bridge) 0 episode_start_c1

/-- The action dictionary with no direction field at all. -/
def emptyAction : Action := fun _ => none

/-- C8: when the action's direction field is absent or holds a non-numeric
value, `simulate` fails with the InvalidAction kind — the exception escapes
to the caller with no internal recovery — and the engine state is not
mutated by the failed call. -/
theorem C8_invalid_action (b : BridgeState) (action : Action)
    (h : action directionKey = none ∨
         action directionKey = some PyValue.nonNumeric) :
    (simulate b action).1 = Except.error SimError.invalidAction ∧
    (simulate b action).2.simulation = b.simulation := by
  rcases h with h | h <;> (unfold simulate; rw [h]; exact ⟨rfl, rfl⟩)

theorem C8_invalid_action_witness :
    (simulate b0 emptyAction).1 = Except.error SimError.invalidAction ∧
    (simulate b0 emptyAction).2.simulation = b0.simulation :=
  C8_invalid_action b0 emptyAction (Or.inl rfl)

/-- For a candidate retry bound `B`, a draw stream whose draws up to index
`B` are all rejected (agent on top of the target) and whose draw `B + 1` is
acceptable (distance 1). -/
noncomputable def c9Draws (B : ℕ) : ℕ → Draw :=
  fun i => if i ≤ B then (((0:ℝ), (0:ℝ)), ((0:ℝ), (0:ℝ)))
           else (((1:ℝ), (0:ℝ)), ((0:ℝ), (0:ℝ)))

/-- The state `reset` eventually accepts from `c9Draws B`. -/
noncomputable def c9State : SimState :=
  { current := ((0:ℝ), (0:ℝ))
    target := ((1:ℝ), (0:ℝ))
    steps := 0
    initial_distance := distance ((0:ℝ), (0:ℝ)) ((1:ℝ), (0:ℝ)) }

lemma c9Draws_bad (B : ℕ) : ∀ i ≤ B, ¬ goodDraw (c9Draws B i) := by
  intro i hi hgood
  have hd : c9Draws B i = (((0:ℝ), (0:ℝ)), ((0:ℝ), (0:ℝ))) := by
    simp [c9Draws, hi]
  rw [hd] at hgood
  exact hgood (by rw [distance_00_00]; norm_num [PRECISION])

lemma c9Draws_goodAt (B : ℕ) : goodDraw (c9Draws B (B + 1)) := by
  have hn : ¬ (B + 1 ≤ B) := by omega
  have hd : c9Draws B (B + 1) = (((1:ℝ), (0:ℝ)), ((0:ℝ), (0:ℝ))) := by
    simp [c9Draws, hn]
  rw [hd]
  show ¬ distance ((0:ℝ), (0:ℝ)) ((1:ℝ), (0:ℝ)) < PRECISION
  rw [distance_00_10]
  norm_num [PRECISION]

lemma reset_c9 (B : ℕ) : reset (c9Draws B) = some c9State := by
  have hn : ¬ (B + 1 ≤ B) := by omega
  have hd : c9Draws B (B + 1) = (((1:ℝ), (0:ℝ)), ((0:ℝ), (0:ℝ))) := by
    simp [c9Draws, hn]
  have h := reset_eq_first_good (c9Draws B) (B + 1) (c9Draws_goodAt B)
    (fun i hi => c9Draws_bad B i (Nat.lt_succ_iff.mp hi))
  rw [h, hd]
  rfl

/-- C9: the claim asserts a bounded retry count, with a fatal
InvariantViolation failure once the bound is exceeded.  The redraw loop of
`reset` has neither: for every candidate bound `B` the stream `c9Draws B`
has its first `B + 1` draws all violating the minimum-separation invariant,
yet `reset` keeps redrawing past the bound and returns the first acceptable
state instead of failing; concretely, with `B = 1000` the loop rejects 1001
draws and still succeeds. -/
theorem C9_bounded_retry_counterexample :
    (∀ i ≤ 1000, ¬ goodDraw (c9Draws 1000 i)) ∧
    reset (c9Draws 1000) = some c9State ∧
    (∀ B : ℕ, reset (c9Draws B) = some c9State) :=
  ⟨c9Draws_bad 1000, reset_c9 1000, reset_c9⟩

/-- C9 (amended): `reset` performs unbounded rejection sampling: there is no
retry cap and no failure outcome.  Whenever the draw stream contains an
acceptable pair, `reset` returns the state built from the first one, however
many rejected draws precede it; a stream with no acceptable draw makes the
loop run forever (`none` in the model), never an InvariantViolation error. -/
theorem C9_unbounded_retry (draws : ℕ → Draw) (n : ℕ)
    (hg : goodDraw (draws n)) (hb : ∀ i < n, ¬ goodDraw (draws i)) :
    reset draws = some { current := (draws n).2
                         target := (draws n).1
                         steps := 0
                         initial_distance := distance (draws n).2 (draws n).1 } :=
  reset_eq_first_good draws n hg hb

theorem C9_unbounded_retry_witness : reset (c9Draws 1000) = some c9State := by
  have h := C9_unbounded_retry (c9Draws 1000) 1001 (c9Draws_goodAt 1000)
    (fun i hi => c9Draws_bad 1000 i (Nat.lt_succ_iff.mp hi))
  rw [h]
  have hn : ¬ (1000 + 1 ≤ 1000) := by omega
  have hd : c9Draws 1000 (1000 + 1) = (((1:ℝ), (0:ℝ)), ((0:ℝ), (0:ℝ))) := by
    simp [c9Draws, hn]
  rw [hd]
  rfl

lemma simulateMany_steps (ds : List ℝ) : ∀ b : BridgeState,
    (simulateMany b ds).simulation.steps = b.simulation.steps + ds.length := by
  induction ds with
  | nil => intro b; rfl
  | cons d ds ih =>
      intro b
      have h1 : simulateMany b (d :: ds) =
          simulateMany ((simulate b (actionNum d)).2) ds := rfl
      rw [h1, ih]
      show (postB b d).simulation.steps + ds.length =
        b.simulation.steps + (d :: ds).length
      rw [postB_steps, List.length_cons]
      omega

/-- C10: `simulate` is not guarded against an already-terminal episode, and
once the step counter has reached `MAX_STEPS` the terminal condition is
absorbing: a further call still moves the point and increments the counter,
every later adapter state stays terminal however many further calls are
made, and each call returns the terminal reward `MAX_STEPS - steps`, which
is strictly negative past the budget. -/
theorem C10_terminal_absorbing (b : BridgeState) (d : ℝ)
    (hsteps : b.simulation.steps ≥ MAX_STEPS) :
    _is_terminal b ∧
    (simulate b (actionNum d)).2.simulation.steps = b.simulation.steps + 1 ∧
    (simulate b (actionNum d)).2.simulation.current =
      (_move_current b.simulation d).current ∧
    returnedReward (simulate b (actionNum d)) =
      some ((MAX_STEPS : ℝ) - ((b.simulation.steps : ℝ) + 1)) ∧
    (MAX_STEPS : ℝ) - ((b.simulation.steps : ℝ) + 1) < 0 ∧
    (∀ ds : List ℝ, _is_terminal (simulateMany b ds)) := by
  have hterm' : _is_terminal (postB b d) :=
    Or.inr (by rw [postB_steps]; omega)
  refine ⟨Or.inr hsteps, ?_, ?_, ?_, ?_, fun ds => ?_⟩
  · rw [simulate_actionNum, postB_steps]
  · rw [simulate_actionNum, postB_current]
  · rw [simulate_actionNum]
    show some (reward_shaped (postB b d) (step b.simulation d).current
      b.simulation.current b.simulation.target) = _
    rw [reward_shaped, if_pos hterm', postB_steps]
    push_cast
    ring_nf
  · have h20 : (MAX_STEPS : ℝ) ≤ (b.simulation.steps : ℝ) := by exact_mod_cast hsteps
    linarith
  · exact Or.inr (by rw [simulateMany_steps]; omega)

theorem C10_terminal_absorbing_witness :
    wBridge20.simulation.steps ≥ MAX_STEPS ∧
    returnedReward (simulate wBridge20 (actionNum 0)) = some (-1) := by
  have h := C10_terminal_absorbing wBridge20 0 (by decide)
  refine ⟨by decide, ?_⟩
  rw [h.2.2.2.1]
  have hst : wBridge20.simulation.steps = 20 := rfl
  rw [hst]
  norm_num [MAX_STEPS]

end MoveAPoint
